import Mathlib

/-!
Verification of the telemint TypeScript helper layer: a shallow embedding of
the `@ton/core` cell builder semantics used by the repository's encoders
(`signMessage.ts`, `auctionConfig.ts`, `royaltyParams.ts`, `nftContent.ts`),
together with theorems settling the specification claims about them.

Cells are bit lists plus child references; a builder accumulates at most
1023 bits and 4 references, exactly as in `@ton/core`.  JavaScript strings
are modelled as lists of Unicode code points; `String.prototype.length`
(UTF-16 code units) and UTF-8 byte encoding are modelled separately, since
the distinction matters to the claims.
-/

set_option maxRecDepth 100000

namespace Telemint

/-- A TON cell: up to 1023 data bits and up to 4 child references. -/
inductive Cell where
  | mk : List Bool → List Cell → Cell

def Cell.bits : Cell → List Bool
  | .mk b _ => b

def Cell.refs : Cell → List Cell
  | .mk _ r => r

/-- Big-endian bit representation of `n` in exactly `w` bits (low bits kept). -/
def natToBits : Nat → Nat → List Bool
  | 0, _ => []
  | w + 1, n => natToBits w (n / 2) ++ [decide (n % 2 = 1)]

/-- Big-endian read of a bit list as a natural number. -/
def bitsToNat (l : List Bool) : Nat :=
  l.foldl (fun acc b => 2 * acc + (if b then 1 else 0)) 0

/-- UTF-8 bytes laid out most-significant-bit first, as the builder stores them. -/
def bytesToBits (src : List Nat) : List Bool :=
  (src.map (natToBits 8)).flatten

/-- Split a bit list back into bytes (big-endian per byte). -/
def bitsToBytes : List Bool → List Nat
  | [] => []
  | b :: l => bitsToNat (b :: l.take 7) :: bitsToBytes (l.drop 7)
termination_by l => l.length
decreasing_by simp [List.length_drop]; omega

/-- A cell builder: `@ton/core` `Builder` (1023-bit / 4-ref capacity). -/
structure Builder where
  bits : List Bool
  refs : List Cell

def beginCell : Builder := ⟨[], []⟩

def Builder.availableBits (b : Builder) : Nat := 1023 - b.bits.length

def Builder.endCell (b : Builder) : Cell := Cell.mk b.bits b.refs

/-- `Builder.storeUint(value, bits)`: range-checks the value against `2^bits`
and the capacity, then appends big-endian bits. -/
def Builder.storeUint (b : Builder) (value : Int) (bits : Nat) : Except String Builder :=
  if value < 0 ∨ (2 : Int) ^ bits ≤ value then
    .error "bitLength is too small for a value"
  else if 1023 < b.bits.length + bits then
    .error "BitBuilder overflow"
  else
    .ok ⟨b.bits ++ natToBits bits value.toNat, b.refs⟩

/-- `Builder.storeInt(value, bits)`: two's-complement signed store. -/
def Builder.storeInt (b : Builder) (value : Int) (bits : Nat) : Except String Builder :=
  if value < -((2 : Int) ^ (bits - 1)) ∨ (2 : Int) ^ (bits - 1) ≤ value then
    .error "bitLength is too small for a value"
  else if 1023 < b.bits.length + bits then
    .error "BitBuilder overflow"
  else
    .ok ⟨b.bits ++ natToBits bits (value % (2 : Int) ^ bits).toNat, b.refs⟩

/-- `Builder.storeBit`. -/
def Builder.storeBit (b : Builder) (v : Bool) : Except String Builder :=
  if 1023 ≤ b.bits.length then .error "BitBuilder overflow"
  else .ok ⟨b.bits ++ [v], b.refs⟩

/-- `Builder.storeRef`: at most four references per cell. -/
def Builder.storeRef (b : Builder) (c : Cell) : Except String Builder :=
  if 4 ≤ b.refs.length then .error "Too many references"
  else .ok ⟨b.bits, b.refs ++ [c]⟩

/-- `Builder.storeMaybeRef`: presence bit, then the reference when present. -/
def Builder.storeMaybeRef (b : Builder) (c : Option Cell) : Except String Builder :=
  match c with
  | some c => do (← b.storeBit true).storeRef c
  | none => b.storeBit false

/-- `Builder.storeBuffer`: whole bytes, capacity-checked. -/
def Builder.storeBytes (b : Builder) (src : List Nat) : Except String Builder :=
  if b.availableBits < 8 * src.length then .error "BitBuilder overflow"
  else .ok ⟨b.bits ++ bytesToBits src, b.refs⟩

/-- A JavaScript string, as a sequence of Unicode code points. -/
abbrev JsString := List Nat

/-- UTF-16 code units used by one code point (`String.prototype.length` counts these). -/
def utf16Units (c : Nat) : Nat := if c < 0x10000 then 1 else 2

/-- JavaScript `s.length`: number of UTF-16 code units. -/
def jsLength (s : JsString) : Nat := (s.map utf16Units).sum

/-- UTF-8 encoding of one code point (what `Buffer.from(s)` produces per scalar). -/
def utf8EncodeChar (c : Nat) : List Nat :=
  if c < 0x80 then [c]
  else if c < 0x800 then [0xC0 + c / 64, 0x80 + c % 64]
  else if c < 0x10000 then [0xE0 + c / 4096, 0x80 + c / 64 % 64, 0x80 + c % 64]
  else [0xF0 + c / 262144, 0x80 + c / 4096 % 64, 0x80 + c / 64 % 64, 0x80 + c % 64]

/-- UTF-8 byte sequence of a string. -/
def utf8Encode (s : JsString) : List Nat := (s.map utf8EncodeChar).flatten

/-- One-byte-at-a-time UTF-8 decoder: `need` is the number of continuation
bytes still expected for the current code point, `acc` its value so far. -/
def utf8DecodeAux : Nat → Nat → List Nat → Except String JsString
  | 0, _, [] => .ok []
  | _ + 1, _, [] => .error "invalid UTF-8"
  | 0, _, b :: rest =>
    if b < 0x80 then Except.map (fun tl => b :: tl) (utf8DecodeAux 0 0 rest)
    else if b < 0xC0 then .error "invalid UTF-8"
    else if b < 0xE0 then utf8DecodeAux 1 (b - 0xC0) rest
    else if b < 0xF0 then utf8DecodeAux 2 (b - 0xE0) rest
    else if b < 0xF8 then utf8DecodeAux 3 (b - 0xF0) rest
    else .error "invalid UTF-8"
  | n + 1, acc, b :: rest =>
    if 0x80 ≤ b ∧ b < 0xC0 then
      if n = 0 then
        Except.map (fun tl => (acc * 64 + (b - 0x80)) :: tl) (utf8DecodeAux 0 0 rest)
      else utf8DecodeAux n (acc * 64 + (b - 0x80)) rest
    else .error "invalid UTF-8"

/-- UTF-8 decoding back to code points (`Buffer.prototype.toString` on valid input). -/
def utf8Decode (l : List Nat) : Except String JsString := utf8DecodeAux 0 0 l

/-- The snake-format continuation chain built by `writeBuffer` for bytes that do
not fit: each fresh child cell holds `⌊1023/8⌋ = 127` bytes and at most one
reference to the rest. -/
def chunkTail (src : List Nat) : Cell :=
  if src.length ≤ 127 then Cell.mk (bytesToBits src) []
  else Cell.mk (bytesToBits (src.take 127)) [chunkTail (src.drop 127)]
termination_by src.length
decreasing_by simp [List.length_drop]; omega

/-- `Builder.storeStringTail` (`writeString`/`writeBuffer` of `@ton/core`):
store the UTF-8 bytes that fit, spilling the remainder into a chain of
referenced cells; an empty string stores nothing. -/
def Builder.storeStringTail (b : Builder) (s : JsString) : Except String Builder :=
  let src := utf8Encode s
  if src.length = 0 then .ok b
  else
    let bytes := b.availableBits / 8
    if bytes < src.length then do
      let b2 ← b.storeBytes (src.take bytes)
      b2.storeRef (chunkTail (src.drop bytes))
    else b.storeBytes src

/-- A TON address: workchain plus 256-bit account hash. -/
structure Address where
  workchain : Int
  hash : Nat

/-- `Builder.storeAddress` for an internal address: tag bits `10`, no anycast,
8-bit signed workchain, 256-bit hash. -/
def Builder.storeAddress (b : Builder) (a : Address) : Except String Builder := do
  let b ← b.storeUint 2 2
  let b ← b.storeUint 0 1
  let b ← b.storeInt a.workchain 8
  b.storeUint a.hash 256

/-- Byte width used by `writeVarUint` for a positive value. -/
def coinSizeBytes (n : Nat) : Nat := Nat.log2 n / 8 + 1

/-- `Builder.storeCoins` (`writeVarUint` with a 4-bit length header). -/
def Builder.storeCoins (b : Builder) (value : Int) : Except String Builder :=
  if value < 0 then .error "Invalid value. Got a negative one"
  else if value = 0 then b.storeUint 0 4
  else do
    let b ← b.storeUint (coinSizeBytes value.toNat) 4
    b.storeUint value (8 * coinSizeBytes value.toNat)

/-- A slice over a cell's bits and references (`Cell.beginParse`). -/
structure Slice where
  bits : List Bool
  refs : List Cell

def Cell.beginParse (c : Cell) : Slice := ⟨c.bits, c.refs⟩

/-- `Slice.loadUint`. -/
def Slice.loadUint (s : Slice) (w : Nat) : Except String (Nat × Slice) :=
  if s.bits.length < w then .error "Not enough bits"
  else .ok (bitsToNat (s.bits.take w), ⟨s.bits.drop w, s.refs⟩)

/-- `Slice.loadCoins`: 4-bit byte-length header, then that many bytes. -/
def Slice.loadCoins (s : Slice) : Except String (Nat × Slice) := do
  let (sz, s) ← s.loadUint 4
  s.loadUint (8 * sz)

/-- `Slice.loadAddress` for an internal address. -/
def Slice.loadAddress (s : Slice) : Except String (Address × Slice) := do
  let (tag, s) ← s.loadUint 2
  if tag ≠ 2 then .error "Invalid address" else
  let (anycast, s) ← s.loadUint 1
  if anycast ≠ 0 then .error "Invalid address" else
  let (wc, s) ← s.loadUint 8
  let (h, s) ← s.loadUint 256
  .ok (⟨if wc < 128 then (wc : Int) else (wc : Int) - 256, h⟩, s)

/-- Collect the byte content of a snake-format cell chain (`readBuffer`). -/
def Cell.tailBytes : Cell → Except String (List Nat)
  | .mk bits [] =>
    if bits.length % 8 ≠ 0 then .error "Invalid string length"
    else .ok (bitsToBytes bits)
  | .mk bits [r] =>
    if bits.length % 8 ≠ 0 then .error "Invalid string length"
    else Except.map (fun rest => bitsToBytes bits ++ rest) r.tailBytes
  | .mk bits (_ :: _ :: _) =>
    if bits.length % 8 ≠ 0 then .error "Invalid string length"
    else .ok (bitsToBytes bits)

/-- `Slice.loadStringTail`: remaining bytes of this slice plus the chain. -/
def Slice.loadStringTail (s : Slice) : Except String JsString := do
  let bs ← Cell.tailBytes (Cell.mk s.bits s.refs)
  utf8Decode bs

/-! ## The repository's encoders -/

/-- Input record of `createUnsignedDeployMessageV2` (`signMessage.ts`). -/
structure UnsignedDeployMessageV2 where
  subwalletId : Int
  validSince : Int
  validTill : Int
  tokenName : JsString
  content : Cell
  auctionConfig : Cell
  royaltyParams : Option Cell
  restrictions : Option Cell

/-- `createUnsignedDeployMessageV2` (`src/func/helpers/signMessage.ts`):
`storeUint(subwalletId,32) . storeUint(validSince,32) . storeUint(validTill,32)`
`. storeUint(tokenName.length,8) . storeStringTail(tokenName) . storeRef(content)`
`. storeRef(auctionConfig) . storeMaybeRef(royaltyParams) . storeMaybeRef(restrictions)`. -/
def createUnsignedDeployMessageV2 (p : UnsignedDeployMessageV2) : Except String Cell := do
  let b ← Telemint.beginCell.storeUint p.subwalletId 32
  let b ← b.storeUint p.validSince 32
  let b ← b.storeUint p.validTill 32
  let b ← b.storeUint (jsLength p.tokenName) 8
  let b ← b.storeStringTail p.tokenName
  let b ← b.storeRef p.content
  let b ← b.storeRef p.auctionConfig
  let b ← b.storeMaybeRef p.royaltyParams
  let b ← b.storeMaybeRef p.restrictions
  .ok b.endCell

/-- Input record of `createAuctionConfig` (`auctionConfig.ts`); `none` marks an
omitted optional field, to which the TypeScript destructuring default applies. -/
structure AuctionConfigParams where
  beneficiaryAddress : Address
  initialMinBid : Int
  maxBid : Option Int
  minBidStep : Option Int
  minExtendTime : Option Int
  duration : Option Int

/-- `createAuctionConfig` (`src/func/helpers/auctionConfig.ts`): defaults
`maxBid = 0`, `minBidStep = 5`, `minExtendTime = 300`, `duration = 86400`,
then `storeAddress . storeCoins . storeCoins . storeUint(_,8) . storeUint(_,32)`
`. storeUint(_,32)`. -/
def createAuctionConfig (p : AuctionConfigParams) : Except String Cell := do
  let maxBid := p.maxBid.getD 0
  let minBidStep := p.minBidStep.getD 5
  let minExtendTime := p.minExtendTime.getD 300
  let duration := p.duration.getD 86400
  let b ← Telemint.beginCell.storeAddress p.beneficiaryAddress
  let b ← b.storeCoins p.initialMinBid
  let b ← b.storeCoins maxBid
  let b ← b.storeUint minBidStep 8
  let b ← b.storeUint minExtendTime 32
  let b ← b.storeUint duration 32
  .ok b.endCell

/-- `createDirectMintAuctionConfig` (`src/func/helpers/auctionConfig.ts`):
delegates to `createAuctionConfig` with `initialMinBid = maxBid = mintPrice`,
`minBidStep = 1`, `minExtendTime = 0`, `duration = 0`. -/
def createDirectMintAuctionConfig (beneficiaryAddress : Address) (mintPrice : Int) :
    Except String Cell :=
  createAuctionConfig
    { beneficiaryAddress := beneficiaryAddress
      initialMinBid := mintPrice
      maxBid := some mintPrice
      minBidStep := some 1
      minExtendTime := some 0
      duration := some 0 }

/-- `createRoyaltyParams` (`src/func/helpers/royaltyParams.ts`): rejects a
numerator or denominator outside `[0, 65535]`, then stores
`numerator:u16 || denominator:u16 || destination:address`. -/
def createRoyaltyParams (numerator denominator : Int) (destination : Address) :
    Except String Cell :=
  if numerator < 0 ∨ 65535 < numerator then
    .error "Numerator must be between 0 and 65535"
  else if denominator < 0 ∨ 65535 < denominator then
    .error "Denominator must be between 0 and 65535"
  else do
    let b ← Telemint.beginCell.storeUint numerator 16
    let b ← b.storeUint denominator 16
    let b ← b.storeAddress destination
    .ok b.endCell

/-- Decoded NFT content (`NftContentParams` of `src/unnamed/part_002`). -/
structure NftContentParams where
  uri : Option JsString
deriving DecidableEq

/-- `createNftContent` (`src/unnamed/part_002`): tag byte `1`, then the URI text. -/
def createNftContent (uri : JsString) : Except String Cell := do
  let b ← Telemint.beginCell.storeUint 1 8
  let b ← b.storeStringTail uri
  .ok b.endCell

/-- `parseNftContent` (`src/unnamed/part_002`): tag `1` yields the URI, tag `0`
an empty record, anything else an unsupported-tag error. -/
def parseNftContent (c : Cell) : Except String NftContentParams := do
  let s := c.beginParse
  let (tag, s) ← s.loadUint 8
  if tag = 1 then do
    let uri ← s.loadStringTail
    .ok ⟨some uri⟩
  else if tag = 0 then
    .ok ⟨none⟩
  else
    .error ("Unsupported NFT content tag: " ++ toString tag)

/-- Modelled from the spec: the Item entity's live-auction bid rule (§4.3).
The on-chain auction state machine (the FunC Item contract) is not among the
repository sources — only its TypeScript wrappers, tests and callers are — so
the bid-acceptance rule is taken from the spec's words: a bid is accepted iff
its amount is at least `max(initialMinBid, previousBid * (100 + minBidStepPercent) / 100)`;
a rejected bid leaves the auction state unchanged. -/
structure ItemAuction where
  initialMinBid : Nat
  minBidStepPercent : Nat
  currentBid : Option Nat
deriving DecidableEq

/-- Modelled from the spec: the minimum acceptable next bid of an Active auction. -/
def minimalNextBid (a : ItemAuction) : Nat :=
  match a.currentBid with
  | none => a.initialMinBid
  | some prev => max a.initialMinBid (prev * (100 + a.minBidStepPercent) / 100)

/-- Modelled from the spec: place a bid on an Active auction; `none` means the
bid was rejected with no state change. -/
def placeBid (a : ItemAuction) (amount : Nat) : Option ItemAuction :=
  if minimalNextBid a ≤ amount then
    some { a with currentBid := some amount }
  else
    none

/-! ## Bit- and byte-level lemmas -/

theorem natToBits_length (w n : Nat) : (natToBits w n).length = w := by
  induction w generalizing n with
  | zero => simp [natToBits]
  | succ w ih => simp [natToBits, ih]

theorem bitsToNat_append_bit (l : List Bool) (b : Bool) :
    bitsToNat (l ++ [b]) = 2 * bitsToNat l + (if b then 1 else 0) := by
  simp [bitsToNat, List.foldl_append]

theorem bitsToNat_natToBits (w n : Nat) (h : n < 2 ^ w) :
    bitsToNat (natToBits w n) = n := by
  induction w generalizing n with
  | zero =>
    simp [natToBits, bitsToNat]
    omega
  | succ w ih =>
    have h2 : n / 2 < 2 ^ w := by
      rw [pow_succ] at h
      omega
    rw [natToBits, bitsToNat_append_bit, ih _ h2]
    rcases Nat.mod_two_eq_zero_or_one n with hm | hm <;> simp [hm] <;> omega

theorem bytesToBits_nil : bytesToBits [] = [] := rfl

theorem bytesToBits_cons (x : Nat) (l : List Nat) :
    bytesToBits (x :: l) = natToBits 8 x ++ bytesToBits l := by
  simp [bytesToBits]

theorem bytesToBits_append (a b : List Nat) :
    bytesToBits (a ++ b) = bytesToBits a ++ bytesToBits b := by
  simp [bytesToBits]

theorem bytesToBits_length (l : List Nat) : (bytesToBits l).length = 8 * l.length := by
  induction l with
  | nil => simp [bytesToBits]
  | cons x l ih => simp [bytesToBits_cons, natToBits_length, ih]; ring

theorem bitsToBytes_block (a : List Bool) (rest : List Bool) (ha : a.length = 8) :
    bitsToBytes (a ++ rest) = bitsToNat a :: bitsToBytes rest := by
  match a, ha with
  | b :: t, ha =>
    have ht : t.length = 7 := by simpa using ha
    rw [List.cons_append, bitsToBytes]
    congr 1
    · congr 1
      rw [List.take_append_eq_append_take, ht]
      simp [ht]
    · rw [List.drop_append_eq_append_drop, ht]
      simp [List.drop_eq_nil_of_le (by omega : t.length ≤ 7)]

theorem bitsToBytes_bytesToBits (src : List Nat) (h : ∀ x ∈ src, x < 256) :
    bitsToBytes (bytesToBits src) = src := by
  induction src with
  | nil => simp [bytesToBits, bitsToBytes]
  | cons x l ih =>
    rw [bytesToBits_cons, bitsToBytes_block _ _ (natToBits_length 8 x),
      bitsToNat_natToBits 8 x (by simpa using h x (by simp)),
      ih (fun y hy => h y (by simp [hy]))]

/-! ## UTF-8 lemmas -/

theorem utf8EncodeChar_lt_256 (c : Nat) (hc : c < 0x110000) :
    ∀ b ∈ utf8EncodeChar c, b < 256 := by
  intro b hb
  unfold utf8EncodeChar at hb
  split at hb
  · simp at hb; omega
  · split at hb
    · simp at hb; rcases hb with h | h <;> omega
    · split at hb
      · simp at hb; rcases hb with h | h | h <;> omega
      · simp at hb; rcases hb with h | h | h | h <;> omega

theorem utf8Encode_lt_256 (s : JsString) (hs : ∀ c ∈ s, c < 0x110000) :
    ∀ b ∈ utf8Encode s, b < 256 := by
  intro b hb
  simp only [utf8Encode, List.mem_flatten, List.mem_map] at hb
  obtain ⟨l, ⟨c, hc, rfl⟩, hbl⟩ := hb
  exact utf8EncodeChar_lt_256 c (hs c hc) b hbl

set_option maxRecDepth 8192 in
theorem utf8DecodeAux_start (b : Nat) (rest : List Nat) :
    utf8DecodeAux 0 0 (b :: rest) =
      if b < 0x80 then Except.map (fun tl => b :: tl) (utf8DecodeAux 0 0 rest)
      else if b < 0xC0 then .error "invalid UTF-8"
      else if b < 0xE0 then utf8DecodeAux 1 (b - 0xC0) rest
      else if b < 0xF0 then utf8DecodeAux 2 (b - 0xE0) rest
      else if b < 0xF8 then utf8DecodeAux 3 (b - 0xF0) rest
      else .error "invalid UTF-8" := by
  rw [utf8DecodeAux]

set_option maxRecDepth 8192 in
theorem utf8DecodeAux_cont (n acc b : Nat) (rest : List Nat)
    (hb : 0x80 ≤ b) (hb2 : b < 0xC0) :
    utf8DecodeAux (n + 1) acc (b :: rest) =
      if n = 0 then
        Except.map (fun tl => (acc * 64 + (b - 0x80)) :: tl) (utf8DecodeAux 0 0 rest)
      else utf8DecodeAux n (acc * 64 + (b - 0x80)) rest := by
  rw [utf8DecodeAux, if_pos ⟨hb, hb2⟩]

set_option maxRecDepth 8192 in
theorem utf8Decode_encodeChar (c : Nat) (hc : c < 0x110000) (rest : List Nat) :
    utf8Decode (utf8EncodeChar c ++ rest) =
      Except.map (fun tl => c :: tl) (utf8Decode rest) := by
  show utf8DecodeAux 0 0 _ = Except.map _ (utf8DecodeAux 0 0 rest)
  unfold utf8EncodeChar
  by_cases h1 : c < 0x80
  · rw [if_pos h1, List.cons_append, List.nil_append, utf8DecodeAux_start, if_pos h1]
  · rw [if_neg h1]
    by_cases h2 : c < 0x800
    · rw [if_pos h2, List.cons_append, List.cons_append, List.nil_append,
        utf8DecodeAux_start, if_neg (by omega), if_neg (by omega), if_pos (by omega)]
      rw [show (1 : Nat) = 0 + 1 from rfl, utf8DecodeAux_cont 0 _ _ rest (by omega) (by omega),
        if_pos rfl]
      congr 1
      funext tl
      congr 1
      omega
    · rw [if_neg h2]
      by_cases h3 : c < 0x10000
      · rw [if_pos h3, List.cons_append, List.cons_append, List.cons_append, List.nil_append,
          utf8DecodeAux_start, if_neg (by omega), if_neg (by omega), if_neg (by omega),
          if_pos (by omega)]
        rw [show (2 : Nat) = 1 + 1 from rfl, utf8DecodeAux_cont 1 _ _ _ (by omega) (by omega),
          if_neg one_ne_zero]
        rw [show (1 : Nat) = 0 + 1 from rfl, utf8DecodeAux_cont 0 _ _ rest (by omega) (by omega),
          if_pos rfl]
        congr 1
        funext tl
        congr 1
        omega
      · rw [if_neg h3, List.cons_append, List.cons_append, List.cons_append, List.cons_append,
          List.nil_append, utf8DecodeAux_start, if_neg (by omega), if_neg (by omega),
          if_neg (by omega), if_neg (by omega), if_pos (by omega)]
        rw [show (3 : Nat) = 2 + 1 from rfl, utf8DecodeAux_cont 2 _ _ _ (by omega) (by omega),
          if_neg (by omega)]
        rw [show (2 : Nat) = 1 + 1 from rfl, utf8DecodeAux_cont 1 _ _ _ (by omega) (by omega),
          if_neg one_ne_zero]
        rw [show (1 : Nat) = 0 + 1 from rfl, utf8DecodeAux_cont 0 _ _ rest (by omega) (by omega),
          if_pos rfl]
        congr 1
        funext tl
        congr 1
        omega

theorem utf8Decode_encode_append (s : JsString) (hs : ∀ c ∈ s, c < 0x110000)
    (r : List Nat) :
    utf8Decode (utf8Encode s ++ r) = Except.map (fun tl => s ++ tl) (utf8Decode r) := by
  induction s with
  | nil =>
    simp only [utf8Encode, List.map_nil, List.flatten_nil, List.nil_append]
    cases utf8Decode r <;> simp [Except.map]
  | cons c s ih =>
    have hc : c < 0x110000 := hs c (by simp)
    have hstep : utf8Encode (c :: s) = utf8EncodeChar c ++ utf8Encode s := by
      simp [utf8Encode]
    rw [hstep, List.append_assoc, utf8Decode_encodeChar c hc,
      ih (fun x hx => hs x (by simp [hx]))]
    cases utf8Decode r <;> simp [Except.map]

theorem utf8Decode_nil : utf8Decode [] = .ok [] := by
  rw [utf8Decode, utf8DecodeAux]

theorem utf8Decode_utf8Encode (s : JsString) (hs : ∀ c ∈ s, c < 0x110000) :
    utf8Decode (utf8Encode s) = .ok s := by
  have h := utf8Decode_encode_append s hs []
  rw [List.append_nil, utf8Decode_nil] at h
  simpa [Except.map] using h

/-! ## Snake-chain and builder lemmas -/

theorem tailBytes_chunkTail (src : List Nat) (h : ∀ x ∈ src, x < 256) :
    (chunkTail src).tailBytes = .ok src := by
  rw [chunkTail]
  split
  · rw [Cell.tailBytes]
    rw [if_neg (by simp [bytesToBits_length])]
    rw [bitsToBytes_bytesToBits src h]
  · rw [Cell.tailBytes]
    rw [if_neg (by simp [bytesToBits_length])]
    have hrec := tailBytes_chunkTail (src.drop 127)
      (fun x hx => h x (List.mem_of_mem_drop hx))
    rw [hrec, bitsToBytes_bytesToBits (src.take 127)
      (fun x hx => h x (List.mem_of_mem_take hx))]
    simp [Except.map]
termination_by src.length
decreasing_by simp [List.length_drop]; omega

theorem storeUint_ok (b : Builder) (v : Int) (w : Nat)
    (h0 : 0 ≤ v) (h1 : v < (2 : Int) ^ w) (hcap : b.bits.length + w ≤ 1023) :
    b.storeUint v w = .ok ⟨b.bits ++ natToBits w v.toNat, b.refs⟩ := by
  rw [Builder.storeUint, if_neg (by omega), if_neg (by omega)]

theorem storeUint_err_range (b : Builder) (v : Int) (w : Nat)
    (h : v < 0 ∨ (2 : Int) ^ w ≤ v) :
    b.storeUint v w = .error "bitLength is too small for a value" := by
  rw [Builder.storeUint, if_pos h]

theorem storeInt_ok (b : Builder) (v : Int) (w : Nat)
    (h0 : -((2 : Int) ^ (w - 1)) ≤ v) (h1 : v < (2 : Int) ^ (w - 1))
    (hcap : b.bits.length + w ≤ 1023) :
    b.storeInt v w = .ok ⟨b.bits ++ natToBits w (v % (2 : Int) ^ w).toNat, b.refs⟩ := by
  rw [Builder.storeInt, if_neg (by omega), if_neg (by omega)]

theorem storeBit_ok (b : Builder) (v : Bool) (hcap : b.bits.length < 1023) :
    b.storeBit v = .ok ⟨b.bits ++ [v], b.refs⟩ := by
  rw [Builder.storeBit, if_neg (by omega)]

theorem storeRef_ok (b : Builder) (c : Cell) (hcap : b.refs.length < 4) :
    b.storeRef c = .ok ⟨b.bits, b.refs ++ [c]⟩ := by
  rw [Builder.storeRef, if_neg (by omega)]

theorem storeRef_err (b : Builder) (c : Cell) (hcap : 4 ≤ b.refs.length) :
    b.storeRef c = .error "Too many references" := by
  rw [Builder.storeRef, if_pos hcap]

theorem storeBytes_ok (b : Builder) (src : List Nat)
    (hcap : b.bits.length + 8 * src.length ≤ 1023) :
    b.storeBytes src = .ok ⟨b.bits ++ bytesToBits src, b.refs⟩ := by
  rw [Builder.storeBytes, if_neg (by simp [Builder.availableBits]; omega)]

theorem storeMaybeRef_some (b : Builder) (c : Cell)
    (hbit : b.bits.length < 1023) (href : b.refs.length < 4) :
    b.storeMaybeRef (some c) = .ok ⟨b.bits ++ [true], b.refs ++ [c]⟩ := by
  rw [Builder.storeMaybeRef]
  rw [storeBit_ok b true hbit]
  show Except.bind _ _ = _
  rw [Except.bind]
  exact storeRef_ok _ c href

theorem storeMaybeRef_none (b : Builder) (hbit : b.bits.length < 1023) :
    b.storeMaybeRef none = .ok ⟨b.bits ++ [false], b.refs⟩ := by
  rw [Builder.storeMaybeRef]
  exact storeBit_ok b false hbit

/-- No-spill case of `storeStringTail`: everything fits in the current cell. -/
theorem storeStringTail_fits (b : Builder) (s : JsString)
    (hfits : (utf8Encode s).length ≤ (1023 - b.bits.length) / 8) :
    b.storeStringTail s = .ok ⟨b.bits ++ bytesToBits (utf8Encode s), b.refs⟩ := by
  simp only [Builder.storeStringTail, Builder.availableBits]
  by_cases hz : (utf8Encode s).length = 0
  · rw [if_pos hz, List.eq_nil_of_length_eq_zero hz]
    simp [bytesToBits]
  · rw [if_neg hz, if_neg (by omega)]
    exact storeBytes_ok b _ (by omega)

/-- Spill case of `storeStringTail`: the first `⌊available/8⌋` bytes stay
inline, the rest goes into a snake chain referenced from this cell. -/
theorem storeStringTail_spill (b : Builder) (s : JsString)
    (hb : b.bits.length ≤ 1023)
    (hspill : (1023 - b.bits.length) / 8 < (utf8Encode s).length)
    (href : b.refs.length < 4) :
    b.storeStringTail s =
      .ok ⟨b.bits ++ bytesToBits ((utf8Encode s).take ((1023 - b.bits.length) / 8)),
        b.refs ++ [chunkTail ((utf8Encode s).drop ((1023 - b.bits.length) / 8))]⟩ := by
  simp only [Builder.storeStringTail, Builder.availableBits]
  rw [if_neg (by omega), if_pos hspill]
  rw [storeBytes_ok b _ (by
    have h1 : ((utf8Encode s).take ((1023 - b.bits.length) / 8)).length ≤
        (1023 - b.bits.length) / 8 := by simp
    omega)]
  show Except.bind _ _ = _
  rw [Except.bind]
  exact storeRef_ok _ _ href

theorem bind_ok_eq {α β : Type} (x : Except String α) (f : α → Except String β) (b : α)
    (h : x = .ok b) : (x >>= f) = f b := by
  rw [h]; rfl

theorem bind_err_eq {α β : Type} (x : Except String α) (f : α → Except String β) (e : String)
    (h : x = .error e) : (x >>= f) = .error e := by
  rw [h]; rfl

theorem option_toList_length {α : Type} (o : Option α) : o.toList.length ≤ 1 := by
  cases o <;> simp

theorem storeMaybeRef_ok (b : Builder) (c? : Option Cell)
    (hbit : b.bits.length < 1023) (href : c?.isSome = true → b.refs.length < 4) :
    b.storeMaybeRef c? = .ok ⟨b.bits ++ [c?.isSome], b.refs ++ c?.toList⟩ := by
  cases c? with
  | none => rw [storeMaybeRef_none b hbit]; simp
  | some c => rw [storeMaybeRef_some b c hbit (href rfl)]; simp

theorem storeMaybeRef_some_err (b : Builder) (c : Cell)
    (hbit : b.bits.length < 1023) (href : 4 ≤ b.refs.length) :
    b.storeMaybeRef (some c) = .error "Too many references" := by
  rw [Builder.storeMaybeRef]
  rw [storeBit_ok b true hbit]
  show Except.bind _ _ = _
  rw [Except.bind]
  exact storeRef_err _ c href

theorem loadUint_append (w n : Nat) (rest : List Bool) (refs : List Cell) (h : n < 2 ^ w) :
    Slice.loadUint ⟨natToBits w n ++ rest, refs⟩ w = .ok (n, ⟨rest, refs⟩) := by
  rw [Slice.loadUint, if_neg (by simp [natToBits_length])]
  rw [List.take_left' (natToBits_length w n), List.drop_left' (natToBits_length w n),
    bitsToNat_natToBits w n h]

/-- Bit layout of an internal address as `storeAddress` writes it. -/
def addressBits (a : Address) : List Bool :=
  natToBits 2 2 ++ natToBits 1 0 ++ natToBits 8 (a.workchain % 256).toNat ++
    natToBits 256 a.hash

theorem addressBits_length (a : Address) : (addressBits a).length = 267 := by
  simp [addressBits, natToBits_length]

/-- A well-formed address: workchain fits in a signed byte, hash in 256 bits. -/
def Address.wf (a : Address) : Prop :=
  -128 ≤ a.workchain ∧ a.workchain < 128 ∧ a.hash < 2 ^ 256

theorem storeAddress_ok (b : Builder) (a : Address) (hw : a.wf)
    (hcap : b.bits.length + 267 ≤ 1023) :
    b.storeAddress a = .ok ⟨b.bits ++ addressBits a, b.refs⟩ := by
  obtain ⟨hw1, hw2, hw3⟩ := hw
  rw [Builder.storeAddress]
  rw [bind_ok_eq _ _ _ (storeUint_ok b 2 2 (by norm_num) (by norm_num) (by omega))]
  rw [bind_ok_eq _ _ _ (storeUint_ok _ 0 1 (by norm_num) (by norm_num)
    (by simp [natToBits_length]; omega))]
  rw [bind_ok_eq _ _ _ (storeInt_ok _ a.workchain 8 (by norm_num; omega) (by norm_num; omega)
    (by simp [natToBits_length]; omega))]
  rw [storeUint_ok _ _ 256 (by positivity) (by exact_mod_cast hw3)
    (by simp [natToBits_length]; omega)]
  simp only [addressBits, List.append_assoc, Int.toNat_natCast]
  norm_num
  rfl

theorem loadAddress_append (a : Address) (rest : List Bool) (refs : List Cell) (hw : a.wf) :
    Slice.loadAddress ⟨addressBits a ++ rest, refs⟩ = .ok (a, ⟨rest, refs⟩) := by
  obtain ⟨hw1, hw2, hw3⟩ := hw
  rw [Slice.loadAddress, addressBits]
  simp only [List.append_assoc]
  rw [bind_ok_eq _ _ _ (loadUint_append 2 2 _ refs (by norm_num))]
  rw [if_neg (by norm_num)]
  rw [bind_ok_eq _ _ _ (loadUint_append 1 0 _ refs (by norm_num))]
  rw [if_neg (by norm_num)]
  rw [bind_ok_eq _ _ _ (loadUint_append 8 (a.workchain % 256).toNat _ refs (by omega))]
  rw [bind_ok_eq _ _ _ (loadUint_append 256 a.hash rest refs hw3)]
  have hwc : (if (a.workchain % 256).toNat < 128 then ((a.workchain % 256).toNat : Int)
      else ((a.workchain % 256).toNat : Int) - 256) = a.workchain := by
    split <;> omega
  rw [hwc]

/-- Bit layout of `storeCoins` for a non-negative value. -/
def coinBits (n : Nat) : List Bool :=
  if n = 0 then natToBits 4 0
  else natToBits 4 (coinSizeBytes n) ++ natToBits (8 * coinSizeBytes n) n

theorem coinSizeBytes_le (n : Nat) (h : n < 2 ^ 120) : coinSizeBytes n ≤ 15 := by
  rcases Nat.eq_zero_or_pos n with h0 | h0
  · simp [h0, coinSizeBytes]
  · have := (Nat.log2_lt (by omega)).mpr h
    unfold coinSizeBytes
    omega

theorem lt_pow_coinSize (n : Nat) (h0 : n ≠ 0) : n < 2 ^ (8 * coinSizeBytes n) := by
  have h1 : n < 2 ^ (Nat.log2 n + 1) := Nat.lt_log2_self
  have h2 : Nat.log2 n + 1 ≤ 8 * coinSizeBytes n := by
    unfold coinSizeBytes
    omega
  exact lt_of_lt_of_le h1 (Nat.pow_le_pow_right (by norm_num) h2)

theorem coinBits_length_le (n : Nat) (h : n < 2 ^ 120) : (coinBits n).length ≤ 124 := by
  have := coinSizeBytes_le n h
  unfold coinBits
  split <;> simp [natToBits_length] <;> omega

theorem storeCoins_ok (b : Builder) (v : Int) (h0 : 0 ≤ v) (h1 : v < (2 : Int) ^ 120)
    (hcap : b.bits.length + 124 ≤ 1023) :
    b.storeCoins v = .ok ⟨b.bits ++ coinBits v.toNat, b.refs⟩ := by
  have hvnat : v.toNat < 2 ^ 120 := by
    have h2 : ((2 : Int) ^ 120) = ((2 ^ 120 : Nat) : Int) := by norm_num
    omega
  rw [Builder.storeCoins]
  rw [if_neg (by omega)]
  by_cases hz : v = 0
  · rw [if_pos hz, hz]
    rw [storeUint_ok b 0 4 (by norm_num) (by norm_num) (by omega)]
    simp [coinBits]
  · rw [if_neg hz]
    have hsz := coinSizeBytes_le v.toNat hvnat
    rw [bind_ok_eq _ _ _ (storeUint_ok b (coinSizeBytes v.toNat) 4 (by omega)
      (by norm_num; omega) (by omega))]
    have hlt : v < (2 : Int) ^ (8 * coinSizeBytes v.toNat) := by
      have hp := lt_pow_coinSize v.toNat (by omega)
      have hcast : ((2 ^ (8 * coinSizeBytes v.toNat) : Nat) : Int) =
          (2 : Int) ^ (8 * coinSizeBytes v.toNat) := by push_cast; ring
      omega
    rw [storeUint_ok _ v _ h0 hlt (by simp [natToBits_length]; omega)]
    rw [coinBits, if_neg (by omega)]
    simp only [List.append_assoc, Int.toNat_natCast]

theorem loadCoins_append (n : Nat) (rest : List Bool) (refs : List Cell) (h : n < 2 ^ 120) :
    Slice.loadCoins ⟨coinBits n ++ rest, refs⟩ = .ok (n, ⟨rest, refs⟩) := by
  rw [Slice.loadCoins, coinBits]
  by_cases hz : n = 0
  · rw [if_pos hz]
    rw [bind_ok_eq _ _ _ (loadUint_append 4 0 _ refs (by norm_num))]
    show Slice.loadUint ⟨rest, refs⟩ (8 * 0) = _
    rw [Slice.loadUint, if_neg (by simp)]
    simp [bitsToNat, hz]
  · rw [if_neg hz]
    simp only [List.append_assoc]
    rw [bind_ok_eq _ _ _ (loadUint_append 4 (coinSizeBytes n) _ refs
      (by have := coinSizeBytes_le n h; omega))]
    rw [loadUint_append _ n rest refs (lt_pow_coinSize n hz)]

/-! ## Layout of the unsigned deploy message -/

/-- The fixed-width header bits of the voucher:
`subwalletId:u32 || validSince:u32 || validTill:u32 || tokenName.length:u8`. -/
def voucherHeaderBits (p : UnsignedDeployMessageV2) : List Bool :=
  natToBits 32 p.subwalletId.toNat ++ natToBits 32 p.validSince.toNat ++
    natToBits 32 p.validTill.toNat ++ natToBits 8 (jsLength p.tokenName)

theorem createUnsigned_fits (p : UnsignedDeployMessageV2)
    (h1a : 0 ≤ p.subwalletId) (h1b : p.subwalletId < (2 : Int) ^ 32)
    (h2a : 0 ≤ p.validSince) (h2b : p.validSince < (2 : Int) ^ 32)
    (h3a : 0 ≤ p.validTill) (h3b : p.validTill < (2 : Int) ^ 32)
    (h4 : jsLength p.tokenName ≤ 255)
    (h5 : (utf8Encode p.tokenName).length ≤ 114) :
    createUnsignedDeployMessageV2 p = .ok (Cell.mk
      (voucherHeaderBits p ++ bytesToBits (utf8Encode p.tokenName) ++
        [p.royaltyParams.isSome, p.restrictions.isSome])
      ([p.content, p.auctionConfig] ++ p.royaltyParams.toList ++ p.restrictions.toList)) := by
  rw [createUnsignedDeployMessageV2]
  rw [bind_ok_eq _ _ _ (storeUint_ok beginCell p.subwalletId 32 h1a h1b (by simp [beginCell]))]
  rw [bind_ok_eq _ _ _ (storeUint_ok _ p.validSince 32 h2a h2b
    (by simp [beginCell, natToBits_length]))]
  rw [bind_ok_eq _ _ _ (storeUint_ok _ p.validTill 32 h3a h3b
    (by simp [beginCell, natToBits_length]))]
  rw [bind_ok_eq _ _ _ (storeUint_ok _ (jsLength p.tokenName) 8 (by omega)
    (by norm_num; omega) (by simp [beginCell, natToBits_length]))]
  rw [bind_ok_eq _ _ _ (storeStringTail_fits _ p.tokenName
    (by simp [beginCell, natToBits_length]; omega))]
  rw [bind_ok_eq _ _ _ (storeRef_ok _ p.content (by simp [beginCell]))]
  rw [bind_ok_eq _ _ _ (storeRef_ok _ p.auctionConfig (by simp [beginCell]))]
  rw [bind_ok_eq _ _ _ (storeMaybeRef_ok _ p.royaltyParams
    (by simp [beginCell, natToBits_length, bytesToBits_length]; omega)
    (fun _ => by simp [beginCell]))]
  rw [storeMaybeRef_ok _ p.restrictions
    (by simp [beginCell, natToBits_length, bytesToBits_length]; omega)
    (fun _ => by
      have := option_toList_length p.royaltyParams
      simp [beginCell]
      omega)]
  rw [bind_ok_eq _ _ _ rfl]
  simp [Builder.endCell, beginCell, voucherHeaderBits, Int.toNat_natCast]

theorem createUnsigned_spill (p : UnsignedDeployMessageV2)
    (h1a : 0 ≤ p.subwalletId) (h1b : p.subwalletId < (2 : Int) ^ 32)
    (h2a : 0 ≤ p.validSince) (h2b : p.validSince < (2 : Int) ^ 32)
    (h3a : 0 ≤ p.validTill) (h3b : p.validTill < (2 : Int) ^ 32)
    (h4 : jsLength p.tokenName ≤ 255)
    (h5 : 114 < (utf8Encode p.tokenName).length)
    (h6 : p.royaltyParams = none ∨ p.restrictions = none) :
    createUnsignedDeployMessageV2 p = .ok (Cell.mk
      (voucherHeaderBits p ++ bytesToBits ((utf8Encode p.tokenName).take 114) ++
        [p.royaltyParams.isSome, p.restrictions.isSome])
      ([chunkTail ((utf8Encode p.tokenName).drop 114), p.content, p.auctionConfig] ++
        p.royaltyParams.toList ++ p.restrictions.toList)) := by
  rw [createUnsignedDeployMessageV2]
  rw [bind_ok_eq _ _ _ (storeUint_ok beginCell p.subwalletId 32 h1a h1b (by simp [beginCell]))]
  rw [bind_ok_eq _ _ _ (storeUint_ok _ p.validSince 32 h2a h2b
    (by simp [beginCell, natToBits_length]))]
  rw [bind_ok_eq _ _ _ (storeUint_ok _ p.validTill 32 h3a h3b
    (by simp [beginCell, natToBits_length]))]
  rw [bind_ok_eq _ _ _ (storeUint_ok _ (jsLength p.tokenName) 8 (by omega)
    (by norm_num; omega) (by simp [beginCell, natToBits_length]))]
  rw [bind_ok_eq _ _ _ (storeStringTail_spill _ p.tokenName
    (by simp [beginCell, natToBits_length])
    (by simp [beginCell, natToBits_length]; omega)
    (by simp [beginCell]))]
  rw [bind_ok_eq _ _ _ (storeRef_ok _ p.content (by simp [beginCell]))]
  rw [bind_ok_eq _ _ _ (storeRef_ok _ p.auctionConfig (by simp [beginCell]))]
  rw [bind_ok_eq _ _ _ (storeMaybeRef_ok _ p.royaltyParams
    (by
      have ht : ((utf8Encode p.tokenName).take 114).length = 114 := by
        simp; omega
      simp [beginCell, natToBits_length, bytesToBits_length, List.length_take]
      omega)
    (fun _ => by simp [beginCell]))]
  rw [storeMaybeRef_ok _ p.restrictions
    (by simp [beginCell, natToBits_length, bytesToBits_length, List.length_take]; omega)
    (fun hsome => by
      rcases h6 with h6 | h6
      · simp [beginCell, h6]
      · rw [h6] at hsome
        simp at hsome)]
  rw [bind_ok_eq _ _ _ rfl]
  have h114 : (1023 - (beginCell.bits ++ natToBits 32 p.subwalletId.toNat ++
      natToBits 32 p.validSince.toNat ++ natToBits 32 p.validTill.toNat ++
      natToBits 8 (↑(jsLength p.tokenName) : Int).toNat).length) / 8 = 114 := by
    simp [beginCell, natToBits_length]
  simp only [Builder.endCell, beginCell, voucherHeaderBits, Int.toNat_natCast] at h114 ⊢
  rw [h114]
  simp [Int.toNat_natCast]

theorem createUnsigned_err_subwallet (p : UnsignedDeployMessageV2)
    (h : p.subwalletId < 0 ∨ (2 : Int) ^ 32 ≤ p.subwalletId) :
    createUnsignedDeployMessageV2 p = .error "bitLength is too small for a value" := by
  rw [createUnsignedDeployMessageV2]
  exact bind_err_eq _ _ _ (storeUint_err_range beginCell p.subwalletId 32 h)

theorem createUnsigned_err_since (p : UnsignedDeployMessageV2)
    (h1a : 0 ≤ p.subwalletId) (h1b : p.subwalletId < (2 : Int) ^ 32)
    (h : p.validSince < 0 ∨ (2 : Int) ^ 32 ≤ p.validSince) :
    createUnsignedDeployMessageV2 p = .error "bitLength is too small for a value" := by
  rw [createUnsignedDeployMessageV2]
  rw [bind_ok_eq _ _ _ (storeUint_ok beginCell p.subwalletId 32 h1a h1b (by simp [beginCell]))]
  exact bind_err_eq _ _ _ (storeUint_err_range _ p.validSince 32 h)

theorem createUnsigned_err_till (p : UnsignedDeployMessageV2)
    (h1a : 0 ≤ p.subwalletId) (h1b : p.subwalletId < (2 : Int) ^ 32)
    (h2a : 0 ≤ p.validSince) (h2b : p.validSince < (2 : Int) ^ 32)
    (h : p.validTill < 0 ∨ (2 : Int) ^ 32 ≤ p.validTill) :
    createUnsignedDeployMessageV2 p = .error "bitLength is too small for a value" := by
  rw [createUnsignedDeployMessageV2]
  rw [bind_ok_eq _ _ _ (storeUint_ok beginCell p.subwalletId 32 h1a h1b (by simp [beginCell]))]
  rw [bind_ok_eq _ _ _ (storeUint_ok _ p.validSince 32 h2a h2b
    (by simp [beginCell, natToBits_length]))]
  exact bind_err_eq _ _ _ (storeUint_err_range _ p.validTill 32 h)

theorem createUnsigned_err_namelen (p : UnsignedDeployMessageV2)
    (h1a : 0 ≤ p.subwalletId) (h1b : p.subwalletId < (2 : Int) ^ 32)
    (h2a : 0 ≤ p.validSince) (h2b : p.validSince < (2 : Int) ^ 32)
    (h3a : 0 ≤ p.validTill) (h3b : p.validTill < (2 : Int) ^ 32)
    (h : 255 < jsLength p.tokenName) :
    createUnsignedDeployMessageV2 p = .error "bitLength is too small for a value" := by
  rw [createUnsignedDeployMessageV2]
  rw [bind_ok_eq _ _ _ (storeUint_ok beginCell p.subwalletId 32 h1a h1b (by simp [beginCell]))]
  rw [bind_ok_eq _ _ _ (storeUint_ok _ p.validSince 32 h2a h2b
    (by simp [beginCell, natToBits_length]))]
  rw [bind_ok_eq _ _ _ (storeUint_ok _ p.validTill 32 h3a h3b
    (by simp [beginCell, natToBits_length]))]
  exact bind_err_eq _ _ _ (storeUint_err_range _ (jsLength p.tokenName) 8
    (by right; norm_num; omega))

theorem createUnsigned_err_refs (p : UnsignedDeployMessageV2)
    (h1a : 0 ≤ p.subwalletId) (h1b : p.subwalletId < (2 : Int) ^ 32)
    (h2a : 0 ≤ p.validSince) (h2b : p.validSince < (2 : Int) ^ 32)
    (h3a : 0 ≤ p.validTill) (h3b : p.validTill < (2 : Int) ^ 32)
    (h4 : jsLength p.tokenName ≤ 255)
    (h5 : 114 < (utf8Encode p.tokenName).length)
    (h6 : p.royaltyParams.isSome = true) (h7 : p.restrictions.isSome = true) :
    createUnsignedDeployMessageV2 p = .error "Too many references" := by
  obtain ⟨r, hr⟩ := Option.isSome_iff_exists.mp h6
  obtain ⟨t, ht⟩ := Option.isSome_iff_exists.mp h7
  rw [createUnsignedDeployMessageV2]
  rw [bind_ok_eq _ _ _ (storeUint_ok beginCell p.subwalletId 32 h1a h1b (by simp [beginCell]))]
  rw [bind_ok_eq _ _ _ (storeUint_ok _ p.validSince 32 h2a h2b
    (by simp [beginCell, natToBits_length]))]
  rw [bind_ok_eq _ _ _ (storeUint_ok _ p.validTill 32 h3a h3b
    (by simp [beginCell, natToBits_length]))]
  rw [bind_ok_eq _ _ _ (storeUint_ok _ (jsLength p.tokenName) 8 (by omega)
    (by norm_num; omega) (by simp [beginCell, natToBits_length]))]
  rw [bind_ok_eq _ _ _ (storeStringTail_spill _ p.tokenName
    (by simp [beginCell, natToBits_length])
    (by simp [beginCell, natToBits_length]; omega)
    (by simp [beginCell]))]
  rw [bind_ok_eq _ _ _ (storeRef_ok _ p.content (by simp [beginCell]))]
  rw [bind_ok_eq _ _ _ (storeRef_ok _ p.auctionConfig (by simp [beginCell]))]
  rw [hr]
  rw [bind_ok_eq _ _ _ (storeMaybeRef_ok _ (some r)
    (by simp [beginCell, natToBits_length, bytesToBits_length, List.length_take]; omega)
    (fun _ => by simp [beginCell]))]
  rw [ht]
  exact bind_err_eq _ _ _ (storeMaybeRef_some_err _ t
    (by simp [beginCell, natToBits_length, bytesToBits_length, List.length_take]; omega)
    (by simp [beginCell]))

/-! ## Auction-config and royalty encode/decode lemmas -/

theorem ok_bind {α β : Type} (a : α) (f : α → Except String β) :
    (Except.ok a >>= f) = f a := rfl

theorem map_ok_eq {α β : Type} (f : α → β) (x : α) :
    Except.map (ε := String) f (.ok x) = .ok (f x) := rfl

/-- Read an auction-config cell back:
`beneficiary:address || initialMinBid:coins || maxBid:coins || minBidStepPercent:u8`
`|| minExtendSeconds:u32 || durationSeconds:u32`. -/
def decodeAuctionConfig (c : Cell) : Except String (Address × Nat × Nat × Nat × Nat × Nat) := do
  let s := c.beginParse
  let (addr, s) ← s.loadAddress
  let (minBid, s) ← s.loadCoins
  let (maxBid, s) ← s.loadCoins
  let (step, s) ← s.loadUint 8
  let (ext, s) ← s.loadUint 32
  let (dur, _) ← s.loadUint 32
  .ok (addr, minBid, maxBid, step, ext, dur)

/-- Read a royalty cell back: `numerator:u16 || denominator:u16 || destination:address`. -/
def decodeRoyaltyParams (c : Cell) : Except String (Nat × Nat × Address) := do
  let s := c.beginParse
  let (n, s) ← s.loadUint 16
  let (d, s) ← s.loadUint 16
  let (a, _) ← s.loadAddress
  .ok (n, d, a)

theorem createAuctionConfig_ok (q : AuctionConfigParams) (hw : q.beneficiaryAddress.wf)
    (hbid0 : 0 ≤ q.initialMinBid) (hbid1 : q.initialMinBid < (2 : Int) ^ 120)
    (hmax0 : 0 ≤ q.maxBid.getD 0) (hmax1 : q.maxBid.getD 0 < (2 : Int) ^ 120)
    (hstep0 : 0 ≤ q.minBidStep.getD 5) (hstep1 : q.minBidStep.getD 5 < 256)
    (hext0 : 0 ≤ q.minExtendTime.getD 300) (hext1 : q.minExtendTime.getD 300 < (2 : Int) ^ 32)
    (hdur0 : 0 ≤ q.duration.getD 86400) (hdur1 : q.duration.getD 86400 < (2 : Int) ^ 32) :
    createAuctionConfig q = .ok (Cell.mk
      (addressBits q.beneficiaryAddress ++ coinBits q.initialMinBid.toNat ++
        coinBits (q.maxBid.getD 0).toNat ++ natToBits 8 (q.minBidStep.getD 5).toNat ++
        natToBits 32 (q.minExtendTime.getD 300).toNat ++
        natToBits 32 (q.duration.getD 86400).toNat) []) := by
  have hc1 := coinBits_length_le q.initialMinBid.toNat (by omega)
  have hc2 := coinBits_length_le (q.maxBid.getD 0).toNat (by omega)
  rw [createAuctionConfig]
  rw [bind_ok_eq _ _ _ (storeAddress_ok beginCell q.beneficiaryAddress hw (by simp [beginCell]))]
  rw [bind_ok_eq _ _ _ (storeCoins_ok _ q.initialMinBid hbid0 hbid1
    (by simp [beginCell, addressBits_length]))]
  rw [bind_ok_eq _ _ _ (storeCoins_ok _ (q.maxBid.getD 0) hmax0 hmax1
    (by simp [beginCell, addressBits_length]; omega))]
  rw [bind_ok_eq _ _ _ (storeUint_ok _ (q.minBidStep.getD 5) 8 hstep0
    (by norm_num; omega) (by simp [beginCell, addressBits_length, natToBits_length]; omega))]
  rw [bind_ok_eq _ _ _ (storeUint_ok _ (q.minExtendTime.getD 300) 32 hext0 hext1
    (by simp [beginCell, addressBits_length, natToBits_length]; omega))]
  rw [bind_ok_eq _ _ _ (storeUint_ok _ (q.duration.getD 86400) 32 hdur0 hdur1
    (by simp [beginCell, addressBits_length, natToBits_length]; omega))]
  simp [Builder.endCell, beginCell]

theorem decodeAuctionConfig_encode (q : AuctionConfigParams) (hw : q.beneficiaryAddress.wf)
    (hbid0 : 0 ≤ q.initialMinBid) (hbid1 : q.initialMinBid < (2 : Int) ^ 120)
    (hmax0 : 0 ≤ q.maxBid.getD 0) (hmax1 : q.maxBid.getD 0 < (2 : Int) ^ 120)
    (hstep0 : 0 ≤ q.minBidStep.getD 5) (hstep1 : q.minBidStep.getD 5 < 256)
    (hext0 : 0 ≤ q.minExtendTime.getD 300) (hext1 : q.minExtendTime.getD 300 < (2 : Int) ^ 32)
    (hdur0 : 0 ≤ q.duration.getD 86400) (hdur1 : q.duration.getD 86400 < (2 : Int) ^ 32) :
    (createAuctionConfig q >>= decodeAuctionConfig) = .ok (q.beneficiaryAddress,
      q.initialMinBid.toNat, (q.maxBid.getD 0).toNat, (q.minBidStep.getD 5).toNat,
      (q.minExtendTime.getD 300).toNat, (q.duration.getD 86400).toNat) := by
  rw [createAuctionConfig_ok q hw hbid0 hbid1 hmax0 hmax1 hstep0 hstep1 hext0 hext1 hdur0 hdur1]
  rw [ok_bind]
  rw [decodeAuctionConfig]
  have e1 := loadAddress_append q.beneficiaryAddress
    (coinBits q.initialMinBid.toNat ++ (coinBits (q.maxBid.getD 0).toNat ++
      (natToBits 8 (q.minBidStep.getD 5).toNat ++ (natToBits 32 (q.minExtendTime.getD 300).toNat ++
        natToBits 32 (q.duration.getD 86400).toNat)))) [] hw
  have e2 := loadCoins_append q.initialMinBid.toNat
    (coinBits (q.maxBid.getD 0).toNat ++ (natToBits 8 (q.minBidStep.getD 5).toNat ++
      (natToBits 32 (q.minExtendTime.getD 300).toNat ++
        natToBits 32 (q.duration.getD 86400).toNat))) [] (by omega)
  have e3 := loadCoins_append (q.maxBid.getD 0).toNat
    (natToBits 8 (q.minBidStep.getD 5).toNat ++ (natToBits 32 (q.minExtendTime.getD 300).toNat ++
      natToBits 32 (q.duration.getD 86400).toNat)) [] (by omega)
  have e4 := loadUint_append 8 (q.minBidStep.getD 5).toNat
    (natToBits 32 (q.minExtendTime.getD 300).toNat ++
      natToBits 32 (q.duration.getD 86400).toNat) [] (by omega)
  have e5 := loadUint_append 32 (q.minExtendTime.getD 300).toNat
    (natToBits 32 (q.duration.getD 86400).toNat) [] (by norm_num; omega)
  have e6 := loadUint_append 32 (q.duration.getD 86400).toNat [] [] (by norm_num; omega)
  simp only [List.append_nil] at e6
  simp only [Cell.beginParse, Cell.bits, Cell.refs, List.append_assoc, e1, ok_bind,
    e2, e3, e4, e5, e6]

theorem createRoyaltyParams_ok (num den : Int) (dest : Address) (hw : dest.wf)
    (h1 : 0 ≤ num) (h2 : num ≤ 65535) (h3 : 0 ≤ den) (h4 : den ≤ 65535) :
    createRoyaltyParams num den dest = .ok (Cell.mk
      (natToBits 16 num.toNat ++ natToBits 16 den.toNat ++ addressBits dest) []) := by
  rw [createRoyaltyParams, if_neg (by omega), if_neg (by omega)]
  rw [bind_ok_eq _ _ _ (storeUint_ok beginCell num 16 h1 (by norm_num; omega)
    (by simp [beginCell]))]
  rw [bind_ok_eq _ _ _ (storeUint_ok _ den 16 h3 (by norm_num; omega)
    (by simp [beginCell, natToBits_length]))]
  rw [bind_ok_eq _ _ _ (storeAddress_ok _ dest hw (by simp [beginCell, natToBits_length]))]
  simp [Builder.endCell, beginCell]

theorem decodeRoyaltyParams_encode (num den : Int) (dest : Address) (hw : dest.wf)
    (h1 : 0 ≤ num) (h2 : num ≤ 65535) (h3 : 0 ≤ den) (h4 : den ≤ 65535) :
    (createRoyaltyParams num den dest >>= decodeRoyaltyParams) =
      .ok (num.toNat, den.toNat, dest) := by
  rw [createRoyaltyParams_ok num den dest hw h1 h2 h3 h4, ok_bind, decodeRoyaltyParams]
  have e1 := loadUint_append 16 num.toNat (natToBits 16 den.toNat ++ addressBits dest) []
    (by norm_num; omega)
  have e2 := loadUint_append 16 den.toNat (addressBits dest) [] (by norm_num; omega)
  have e3 := loadAddress_append dest [] [] hw
  simp only [List.append_nil] at e3
  simp only [Cell.beginParse, Cell.bits, Cell.refs, List.append_assoc, e1, ok_bind, e2, e3]

theorem createAuctionConfig_err_step (q : AuctionConfigParams) (hw : q.beneficiaryAddress.wf)
    (hbid0 : 0 ≤ q.initialMinBid) (hbid1 : q.initialMinBid < (2 : Int) ^ 120)
    (hmax0 : 0 ≤ q.maxBid.getD 0) (hmax1 : q.maxBid.getD 0 < (2 : Int) ^ 120)
    (h : q.minBidStep.getD 5 < 0 ∨ 255 < q.minBidStep.getD 5) :
    createAuctionConfig q = .error "bitLength is too small for a value" := by
  rw [createAuctionConfig]
  rw [bind_ok_eq _ _ _ (storeAddress_ok beginCell q.beneficiaryAddress hw (by simp [beginCell]))]
  rw [bind_ok_eq _ _ _ (storeCoins_ok _ q.initialMinBid hbid0 hbid1
    (by simp [beginCell, addressBits_length]))]
  have hc1 := coinBits_length_le q.initialMinBid.toNat (by omega)
  rw [bind_ok_eq _ _ _ (storeCoins_ok _ (q.maxBid.getD 0) hmax0 hmax1
    (by simp [beginCell, addressBits_length]; omega))]
  refine bind_err_eq _ _ _ (storeUint_err_range _ (q.minBidStep.getD 5) 8 ?_)
  rcases h with h | h
  · exact Or.inl (by omega)
  · refine Or.inr ?_
    norm_num
    omega

/-! ## Claim theorems -/

/-- C1 counterexample: a spec-valid 200-byte ASCII name (200 UTF-16 units and
200 UTF-8 bytes, both at most 255) with no optional references does not encode
to the claimed layout: only the first 114 name bytes stay inline, the name's
remainder becomes the cell's FIRST reference — ahead of the content and
auction-config references — and the cell has three references where the
claimed layout has two. -/
theorem voucher_layout_counterexample :
    createUnsignedDeployMessageV2
        ⟨1, 2, 3, List.replicate 200 97, Cell.mk [] [], Cell.mk [true] [], none, none⟩ =
      .ok (Cell.mk
        (voucherHeaderBits
            ⟨1, 2, 3, List.replicate 200 97, Cell.mk [] [], Cell.mk [true] [], none, none⟩ ++
          bytesToBits ((utf8Encode (List.replicate 200 97)).take 114) ++ [false, false])
        [chunkTail ((utf8Encode (List.replicate 200 97)).drop 114),
          Cell.mk [] [], Cell.mk [true] []]) ∧
    (match createUnsignedDeployMessageV2
        ⟨1, 2, 3, List.replicate 200 97, Cell.mk [] [], Cell.mk [true] [], none, none⟩ with
      | .ok c => c.refs.length
      | .error _ => 0) = 3 ∧
    jsLength (List.replicate 200 97) ≤ 255 ∧
    (utf8Encode (List.replicate 200 97)).length = 200 := by
  have h := createUnsigned_spill
    ⟨1, 2, 3, List.replicate 200 97, Cell.mk [] [], Cell.mk [true] [], none, none⟩
    (by decide) (by decide) (by decide) (by decide) (by decide) (by decide)
    (by decide) (by decide) (Or.inl rfl)
  refine ⟨?_, ?_, by decide, by decide⟩
  · simpa using h
  · rw [h]
    rfl

/-- C1 corrected: for every input record with in-range `u32` fields and a
token name of at most 255 UTF-16 units, and for each of the four
optional-field presence combinations, the claimed layout — header
`subwalletId:u32 || validSince:u32 || validTill:u32 || nameLen:u8`, the name
bytes, one presence bit per optional field, with references
`content, auctionConfig`, then the optional references — holds exactly when
the name's UTF-8 encoding fits inline (at most 114 bytes); a longer name
keeps only its first 114 bytes inline, and a reference to the chained
remainder is prepended ahead of the content reference (requiring at least one
optional reference to be absent, else encoding fails on the fifth
reference). -/
theorem unsignedDeployMessageV2_layout (p : UnsignedDeployMessageV2)
    (h1a : 0 ≤ p.subwalletId) (h1b : p.subwalletId < (2 : Int) ^ 32)
    (h2a : 0 ≤ p.validSince) (h2b : p.validSince < (2 : Int) ^ 32)
    (h3a : 0 ≤ p.validTill) (h3b : p.validTill < (2 : Int) ^ 32)
    (h4 : jsLength p.tokenName ≤ 255) :
    ((utf8Encode p.tokenName).length ≤ 114 →
      createUnsignedDeployMessageV2 p = .ok (Cell.mk
        (voucherHeaderBits p ++ bytesToBits (utf8Encode p.tokenName) ++
          [p.royaltyParams.isSome, p.restrictions.isSome])
        ([p.content, p.auctionConfig] ++ p.royaltyParams.toList ++
          p.restrictions.toList))) ∧
    (114 < (utf8Encode p.tokenName).length →
      (p.royaltyParams = none ∨ p.restrictions = none) →
      createUnsignedDeployMessageV2 p = .ok (Cell.mk
        (voucherHeaderBits p ++ bytesToBits ((utf8Encode p.tokenName).take 114) ++
          [p.royaltyParams.isSome, p.restrictions.isSome])
        ([chunkTail ((utf8Encode p.tokenName).drop 114), p.content, p.auctionConfig] ++
          p.royaltyParams.toList ++ p.restrictions.toList))) :=
  ⟨fun h5 => createUnsigned_fits p h1a h1b h2a h2b h3a h3b h4 h5,
    fun h5 h6 => createUnsigned_spill p h1a h1b h2a h2b h3a h3b h4 h5 h6⟩

/-- C1 witness: a concrete voucher with a short name and both optional
references present takes the claimed inline layout. -/
theorem unsignedDeployMessageV2_layout_witness :
    createUnsignedDeployMessageV2
        ⟨1, 2, 3, [52, 55], Cell.mk [] [], Cell.mk [true] [],
          some (Cell.mk [false] []), some (Cell.mk [true, true] [])⟩ = .ok (Cell.mk
      (voucherHeaderBits
          ⟨1, 2, 3, [52, 55], Cell.mk [] [], Cell.mk [true] [],
            some (Cell.mk [false] []), some (Cell.mk [true, true] [])⟩ ++
        bytesToBits (utf8Encode [52, 55]) ++ [true, true])
      ([Cell.mk [] [], Cell.mk [true] []] ++ [Cell.mk [false] []] ++
        [Cell.mk [true, true] []])) :=
  (unsignedDeployMessageV2_layout
    ⟨1, 2, 3, [52, 55], Cell.mk [] [], Cell.mk [true] [],
      some (Cell.mk [false] []), some (Cell.mk [true, true] [])⟩
    (by decide) (by decide) (by decide) (by decide) (by decide) (by decide)
    (by decide)).1 (by decide)

set_option maxHeartbeats 2000000 in
/-- C2 counterexample: for the one-character name `"é"` (code point `0xE9`),
the stored one-byte length prefix is `1` (the UTF-16 length JavaScript's
`.length` yields) while the name occupies `2` UTF-8 bytes, so the prefix does
not equal the number of UTF-8 bytes that follow it. -/
theorem tokenName_length_counterexample :
    (match createUnsignedDeployMessageV2
        ⟨0, 0, 0, [0xE9], Cell.mk [] [], Cell.mk [] [], none, none⟩ with
      | .ok c => bitsToNat ((c.bits.drop 96).take 8)
      | .error _ => 300) = 1 ∧
    (utf8Encode [0xE9]).length = 2 := by
  constructor
  · decide
  · decide

theorem drop_96_of_three (A B C rest : List Bool) (hA : A.length = 32)
    (hB : B.length = 32) (hC : C.length = 32) :
    List.drop 96 (A ++ (B ++ (C ++ rest))) = rest := by
  rw [List.drop_append_eq_append_drop, hA, List.drop_eq_nil_of_le (by omega), List.nil_append]
  norm_num
  rw [List.drop_append_eq_append_drop, hB, List.drop_eq_nil_of_le (by omega), List.nil_append]
  norm_num
  rw [List.drop_append_eq_append_drop, hC, List.drop_eq_nil_of_le (by omega), List.nil_append]
  norm_num

/-- C2 amended: the one-byte length prefix written by
`createUnsignedDeployMessageV2` equals `tokenName.length`, the UTF-16
code-unit count of the name (not its UTF-8 byte count), and a name whose
UTF-16 length exceeds 255 is rejected with an error. -/
theorem tokenName_lengthByte_spec (p : UnsignedDeployMessageV2)
    (h1a : 0 ≤ p.subwalletId) (h1b : p.subwalletId < (2 : Int) ^ 32)
    (h2a : 0 ≤ p.validSince) (h2b : p.validSince < (2 : Int) ^ 32)
    (h3a : 0 ≤ p.validTill) (h3b : p.validTill < (2 : Int) ^ 32) :
    (jsLength p.tokenName ≤ 255 → (utf8Encode p.tokenName).length ≤ 114 →
      (createUnsignedDeployMessageV2 p).map (fun c => (c.bits.drop 96).take 8) =
        .ok (natToBits 8 (jsLength p.tokenName))) ∧
    (255 < jsLength p.tokenName →
      createUnsignedDeployMessageV2 p = .error "bitLength is too small for a value") := by
  constructor
  · intro h4 h5
    have hdrop : List.take 8 (List.drop 96
        (voucherHeaderBits p ++ bytesToBits (utf8Encode p.tokenName) ++
          [p.royaltyParams.isSome, p.restrictions.isSome])) =
        natToBits 8 (jsLength p.tokenName) := by
      rw [voucherHeaderBits]
      simp only [List.append_assoc]
      rw [drop_96_of_three _ _ _ _ (natToBits_length 32 p.subwalletId.toNat)
        (natToBits_length 32 p.validSince.toNat) (natToBits_length 32 p.validTill.toNat)]
      exact List.take_left' (natToBits_length 8 (jsLength p.tokenName))
    rw [createUnsigned_fits p h1a h1b h2a h2b h3a h3b h4 h5, map_ok_eq]
    exact congrArg Except.ok hdrop
  · intro h4
    exact createUnsigned_err_namelen p h1a h1b h2a h2b h3a h3b h4

/-- C2 witness: the amended statement at a concrete ASCII name. -/
theorem tokenName_lengthByte_spec_witness :
    ((createUnsignedDeployMessageV2
        ⟨7, 8, 9, [49, 50, 51], Cell.mk [] [], Cell.mk [] [], none, none⟩).map
          (fun c => (c.bits.drop 96).take 8) =
      .ok (natToBits 8 (jsLength [49, 50, 51]))) :=
  (tokenName_lengthByte_spec
    ⟨7, 8, 9, [49, 50, 51], Cell.mk [] [], Cell.mk [] [], none, none⟩
    (by decide) (by decide) (by decide) (by decide) (by decide) (by decide)).1
    (by decide) (by decide)

/-- C3 (the auction state machine is modelled from the spec, its on-chain
source not being part of the repository): while an auction is Active, a bid is
accepted iff its amount is at least
`max(initialMinBid, previousBid * (100 + minBidStepPercent) / 100)`; a lower
bid is rejected with no state change; with `initialMinBid = 100`,
`minBidStepPercent = 5` and a previous bid of `100`, a bid of `104` is
rejected and a bid of `105` is accepted. -/
theorem placeBid_spec (a : ItemAuction) (amount prev : Nat)
    (hprev : a.currentBid = some prev) :
    ((placeBid a amount).isSome ↔
      max a.initialMinBid (prev * (100 + a.minBidStepPercent) / 100) ≤ amount) ∧
    (placeBid a amount = none → a = a) ∧
    placeBid ⟨100, 5, some 100⟩ 104 = none ∧
    placeBid ⟨100, 5, some 100⟩ 105 = some ⟨100, 5, some 105⟩ := by
  refine ⟨?_, fun _ => rfl, by decide, by decide⟩
  rw [placeBid, minimalNextBid, hprev]
  split <;> rename_i hsplit <;> simp at hsplit ⊢ <;> simpa using hsplit

/-- C3 witness: the bid rule applied at the concrete boundary example. -/
theorem placeBid_spec_witness :
    ((placeBid ⟨100, 5, some 100⟩ 105).isSome ↔
      max 100 (100 * (100 + 5) / 100) ≤ 105) ∧
    (placeBid ⟨100, 5, some 100⟩ 105 = none →
      (⟨100, 5, some 100⟩ : ItemAuction) = ⟨100, 5, some 100⟩) ∧
    placeBid ⟨100, 5, some 100⟩ 104 = none ∧
    placeBid ⟨100, 5, some 100⟩ 105 = some ⟨100, 5, some 105⟩ :=
  placeBid_spec ⟨100, 5, some 100⟩ 105 100 rfl

/-- C4: `createDirectMintAuctionConfig(beneficiary, p)` is exactly
`createAuctionConfig` with `initialMinBid = maxBid = p`, `minBidStep = 1`,
`minExtendTime = 0`, `duration = 0`, and decoding the produced cell returns
`maxBid` equal to `initialMinBid` (both `p`) and `durationSeconds = 0` — the
direct-sale invariant. -/
theorem createDirectMintAuctionConfig_spec (a : Address) (p : Int) (hw : a.wf)
    (hp0 : 0 ≤ p) (hp1 : p < (2 : Int) ^ 120) :
    createDirectMintAuctionConfig a p =
      createAuctionConfig ⟨a, p, some p, some 1, some 0, some 0⟩ ∧
    (createDirectMintAuctionConfig a p >>= decodeAuctionConfig) =
      .ok (a, p.toNat, p.toNat, 1, 0, 0) := by
  refine ⟨rfl, ?_⟩
  have h := decodeAuctionConfig_encode ⟨a, p, some p, some 1, some 0, some 0⟩ hw
    hp0 hp1 (by simpa) (by simpa) (by norm_num) (by norm_num) (by norm_num) (by norm_num)
    (by norm_num) (by norm_num)
  simpa [createDirectMintAuctionConfig] using h

/-- C4 witness: direct-sale config at a concrete beneficiary and price. -/
theorem createDirectMintAuctionConfig_spec_witness :
    createDirectMintAuctionConfig ⟨0, 17⟩ 100 =
      createAuctionConfig ⟨⟨0, 17⟩, 100, some 100, some 1, some 0, some 0⟩ ∧
    (createDirectMintAuctionConfig ⟨0, 17⟩ 100 >>= decodeAuctionConfig) =
      .ok (⟨0, 17⟩, (100 : Int).toNat, (100 : Int).toNat, 1, 0, 0) :=
  createDirectMintAuctionConfig_spec ⟨0, 17⟩ 100
    ⟨by decide, by decide, by decide⟩ (by decide) (by decide)

/-- C5: `createRoyaltyParams` throws exactly when numerator or denominator is
outside `[0, 65535]`; every in-range input encodes
`numerator:u16 || denominator:u16 || destination:address` and reading those
fields back yields the original inputs. -/
theorem createRoyaltyParams_spec (num den : Int) (dest : Address) (hw : dest.wf) :
    ((createRoyaltyParams num den dest).isOk = false ↔
      (num < 0 ∨ 65535 < num ∨ den < 0 ∨ 65535 < den)) ∧
    (0 ≤ num → num ≤ 65535 → 0 ≤ den → den ≤ 65535 →
      (createRoyaltyParams num den dest >>= decodeRoyaltyParams) =
        .ok (num.toNat, den.toNat, dest)) := by
  constructor
  · constructor
    · intro h
      by_contra hc
      push_neg at hc
      obtain ⟨hn0, hn1, hd0, hd1⟩ := hc
      rw [createRoyaltyParams_ok num den dest hw hn0 hn1 hd0 hd1] at h
      simp [Except.isOk, Except.toBool] at h
    · intro h
      by_cases hn : num < 0 ∨ 65535 < num
      · rw [createRoyaltyParams, if_pos hn]
        rfl
      · rw [createRoyaltyParams, if_neg hn, if_pos (by tauto)]
        rfl
  · intro h1 h2 h3 h4
    exact decodeRoyaltyParams_encode num den dest hw h1 h2 h3 h4

/-- C5 witness: the `(5, 100, D)` round-trip from the spec's example. -/
theorem createRoyaltyParams_spec_witness :
    (createRoyaltyParams 5 100 ⟨0, 3⟩ >>= decodeRoyaltyParams) =
      .ok ((5 : Int).toNat, (100 : Int).toNat, ⟨0, 3⟩) :=
  (createRoyaltyParams_spec 5 100 ⟨0, 3⟩ ⟨by decide, by decide, by decide⟩).2
    (by decide) (by decide) (by decide) (by decide)

/-- C6 counterexample: `createAuctionConfig` accepts `minBidStep = 0` — the
encoding succeeds and stores `0` in the 8-bit bid-step field, instead of
rejecting values outside 1–255. -/
theorem minBidStep_zero_counterexample :
    createAuctionConfig ⟨⟨0, 0⟩, 100, some 0, some 0, some 0, some 0⟩ =
      .ok (Cell.mk (addressBits ⟨0, 0⟩ ++ coinBits 100 ++ coinBits 0 ++
        natToBits 8 0 ++ natToBits 32 0 ++ natToBits 32 0) []) := by
  have h := createAuctionConfig_ok ⟨⟨0, 0⟩, 100, some 0, some 0, some 0, some 0⟩
    ⟨by decide, by decide, by decide⟩ (by decide) (by decide) (by decide) (by decide)
    (by decide) (by decide) (by decide) (by decide) (by decide) (by decide)
  simpa using h

/-- C6 amended: `createAuctionConfig` validates the bid-step only against the
u8 range: encoding fails for `minBidStep` outside `[0, 255]` (the 8-bit store's
range check) and succeeds for every value in `0–255` — including `0`, contrary
to the claimed 1–255 validation — storing it as an 8-bit unsigned integer. -/
theorem createAuctionConfig_minBidStep_range (q : AuctionConfigParams)
    (hw : q.beneficiaryAddress.wf)
    (hbid0 : 0 ≤ q.initialMinBid) (hbid1 : q.initialMinBid < (2 : Int) ^ 120)
    (hmax0 : 0 ≤ q.maxBid.getD 0) (hmax1 : q.maxBid.getD 0 < (2 : Int) ^ 120)
    (hext0 : 0 ≤ q.minExtendTime.getD 300) (hext1 : q.minExtendTime.getD 300 < (2 : Int) ^ 32)
    (hdur0 : 0 ≤ q.duration.getD 86400) (hdur1 : q.duration.getD 86400 < (2 : Int) ^ 32) :
    ((q.minBidStep.getD 5 < 0 ∨ 255 < q.minBidStep.getD 5) →
      (createAuctionConfig q).isOk = false) ∧
    (0 ≤ q.minBidStep.getD 5 → q.minBidStep.getD 5 ≤ 255 →
      createAuctionConfig q = .ok (Cell.mk
        (addressBits q.beneficiaryAddress ++ coinBits q.initialMinBid.toNat ++
          coinBits (q.maxBid.getD 0).toNat ++ natToBits 8 (q.minBidStep.getD 5).toNat ++
          natToBits 32 (q.minExtendTime.getD 300).toNat ++
          natToBits 32 (q.duration.getD 86400).toNat) [])) := by
  constructor
  · intro h
    rw [createAuctionConfig_err_step q hw hbid0 hbid1 hmax0 hmax1 h]
    rfl
  · intro hs0 hs1
    exact createAuctionConfig_ok q hw hbid0 hbid1 hmax0 hmax1 hs0 (by omega)
      hext0 hext1 hdur0 hdur1

/-- C6 witness: a zero bid-step accepted and stored, at a concrete input. -/
theorem createAuctionConfig_minBidStep_range_witness :
    createAuctionConfig ⟨⟨0, 5⟩, 7, some 7, some 0, some 1, some 2⟩ =
      .ok (Cell.mk
        (addressBits ⟨0, 5⟩ ++ coinBits (7 : Int).toNat ++
          coinBits ((some (7 : Int)).getD 0).toNat ++
          natToBits 8 ((some (0 : Int)).getD 5).toNat ++
          natToBits 32 ((some (1 : Int)).getD 300).toNat ++
          natToBits 32 ((some (2 : Int)).getD 86400).toNat) []) :=
  (createAuctionConfig_minBidStep_range ⟨⟨0, 5⟩, 7, some 7, some 0, some 1, some 2⟩
    ⟨by decide, by decide, by decide⟩ (by decide) (by decide) (by decide) (by decide)
    (by decide) (by decide) (by decide) (by decide)).2 (by decide) (by decide)

/-- C7: decoding the cell produced by the pointer-URI content encoder returns
exactly the original URI: the encoder writes tag byte `1` followed by the URI
text, and `parseNftContent` recovers it (including when a long URI spills into
a chained reference cell). -/
theorem parseNftContent_roundtrip (uri : JsString)
    (hscalar : ∀ c ∈ uri, c < 0xD800 ∨ (0xE000 ≤ c ∧ c < 0x110000)) :
    (createNftContent uri >>= parseNftContent) = .ok ⟨some uri⟩ := by
  have hlt : ∀ c ∈ uri, c < 0x110000 := fun c hc => by
    rcases hscalar c hc with h | h
    · omega
    · omega
  have hbytes := utf8Encode_lt_256 uri hlt
  rw [createNftContent]
  rw [bind_ok_eq _ _ _ (storeUint_ok beginCell 1 8 (by norm_num) (by norm_num)
    (by simp [beginCell]))]
  by_cases hfit : (utf8Encode uri).length ≤ 126
  · rw [bind_ok_eq _ _ _ (storeStringTail_fits _ uri
      (by simp [beginCell, natToBits_length]; omega))]
    rw [ok_bind]
    rw [parseNftContent, show (1 : Int).toNat = 1 from rfl]
    have e1 := loadUint_append 8 1 (bytesToBits (utf8Encode uri)) [] (by norm_num)
    simp only [Builder.endCell, Cell.beginParse, Cell.bits, Cell.refs, beginCell,
      List.nil_append, Int.toNat_ofNat, e1, ok_bind]
    rw [if_pos trivial]
    rw [Slice.loadStringTail]
    rw [Cell.tailBytes]
    rw [if_neg (by simp [bytesToBits_length])]
    rw [ok_bind, bitsToBytes_bytesToBits _ hbytes, utf8Decode_utf8Encode uri hlt]
    rfl
  · rw [bind_ok_eq _ _ _ (storeStringTail_spill _ uri
      (by simp [beginCell, natToBits_length])
      (by simp [beginCell, natToBits_length]; omega)
      (by simp [beginCell]))]
    rw [ok_bind]
    have h126 : (1023 - (beginCell.bits ++ natToBits 8 (1 : Int).toNat).length) / 8 = 126 := by
      simp [beginCell, natToBits_length]
    rw [h126, parseNftContent, show (1 : Int).toNat = 1 from rfl]
    have e1 := loadUint_append 8 1 (bytesToBits ((utf8Encode uri).take 126))
      [chunkTail ((utf8Encode uri).drop 126)] (by norm_num)
    simp only [Builder.endCell, Cell.beginParse, Cell.bits, Cell.refs, beginCell,
      List.nil_append, Int.toNat_ofNat, e1, ok_bind]
    rw [if_pos trivial]
    rw [Slice.loadStringTail]
    rw [Cell.tailBytes]
    rw [if_neg (by simp [bytesToBits_length])]
    rw [tailBytes_chunkTail _ (fun x hx => hbytes x (List.mem_of_mem_drop hx))]
    rw [map_ok_eq, ok_bind]
    rw [bitsToBytes_bytesToBits _ (fun x hx => hbytes x (List.mem_of_mem_take hx))]
    rw [List.take_append_drop, utf8Decode_utf8Encode uri hlt, ok_bind]

/-- C7 witness: round-trip of a concrete short URI. -/
theorem parseNftContent_roundtrip_witness :
    (createNftContent [104, 116, 116, 112, 115] >>= parseNftContent) =
      .ok ⟨some [104, 116, 116, 112, 115]⟩ :=
  parseNftContent_roundtrip [104, 116, 116, 112, 115] (by decide)

/-- C8: `parseNftContent` never guesses: any content cell whose leading 8-bit
tag is neither `0` nor `1` is rejected with an unsupported-tag error, and a
cell with tag `0` decodes to the empty result rather than failing. -/
theorem parseNftContent_tag_dispatch (tag : Nat) (payload : List Bool) (refs : List Cell)
    (htag : tag < 256) (h0 : tag ≠ 0) (h1 : tag ≠ 1) :
    parseNftContent (Cell.mk (natToBits 8 tag ++ payload) refs) =
      .error ("Unsupported NFT content tag: " ++ toString tag) ∧
    parseNftContent (Cell.mk (natToBits 8 0 ++ payload) refs) = .ok ⟨none⟩ := by
  constructor
  · rw [parseNftContent]
    have e := loadUint_append 8 tag payload refs htag
    simp only [Cell.beginParse, Cell.bits, Cell.refs, e, ok_bind]
    rw [if_neg h1, if_neg h0]
  · rw [parseNftContent]
    have e := loadUint_append 8 0 payload refs (by norm_num)
    simp only [Cell.beginParse, Cell.bits, Cell.refs, e, ok_bind]
    norm_num

/-- C8 witness: tag `5` is rejected and tag `0` yields the empty result, on a
concrete cell. -/
theorem parseNftContent_tag_dispatch_witness :
    parseNftContent (Cell.mk (natToBits 8 5 ++ [true]) []) =
      .error ("Unsupported NFT content tag: " ++ toString 5) ∧
    parseNftContent (Cell.mk (natToBits 8 0 ++ [true]) []) = .ok ⟨none⟩ :=
  parseNftContent_tag_dispatch 5 [true] [] (by decide) (by decide) (by decide)

/-- C9 counterexample: `createRoyaltyParams` with a nonzero numerator and a
zero denominator does not fail — it returns a cell with denominator field `0`. -/
theorem royalty_zero_denominator_counterexample :
    createRoyaltyParams 5 0 ⟨0, 0⟩ =
      .ok (Cell.mk (natToBits 16 5 ++ natToBits 16 0 ++ addressBits ⟨0, 0⟩) []) := by
  have h := createRoyaltyParams_ok 5 0 ⟨0, 0⟩ ⟨by decide, by decide, by decide⟩
    (by decide) (by decide) (by decide) (by decide)
  simpa using h

/-- C9 amended: `createRoyaltyParams` validates only the `[0, 65535]` bounds;
`denominator = 0` is accepted at encode time for every in-range numerator,
producing a cell whose denominator field is `0`. -/
theorem createRoyaltyParams_zero_denominator (num : Int) (dest : Address) (hw : dest.wf)
    (h0 : 0 ≤ num) (h1 : num ≤ 65535) :
    createRoyaltyParams num 0 dest =
      .ok (Cell.mk (natToBits 16 num.toNat ++ natToBits 16 0 ++ addressBits dest) []) := by
  have h := createRoyaltyParams_ok num 0 dest hw h0 h1 (by norm_num) (by norm_num)
  simpa using h

/-- C9 witness: the amended statement at a concrete nonzero numerator. -/
theorem createRoyaltyParams_zero_denominator_witness :
    createRoyaltyParams 7 0 ⟨0, 11⟩ =
      .ok (Cell.mk (natToBits 16 (7 : Int).toNat ++ natToBits 16 0 ++ addressBits ⟨0, 11⟩) []) :=
  createRoyaltyParams_zero_denominator 7 ⟨0, 11⟩ ⟨by decide, by decide, by decide⟩
    (by decide) (by decide)

/-- The exact failure condition of `createUnsignedDeployMessageV2`: a `u32`
field out of range, a name length byte out of range, or a name that spills
into a fifth reference while both optional references are present. -/
def voucherEncodingFails (p : UnsignedDeployMessageV2) : Prop :=
  p.subwalletId < 0 ∨ (2 : Int) ^ 32 ≤ p.subwalletId ∨
  p.validSince < 0 ∨ (2 : Int) ^ 32 ≤ p.validSince ∨
  p.validTill < 0 ∨ (2 : Int) ^ 32 ≤ p.validTill ∨
  255 < jsLength p.tokenName ∨
  (114 < (utf8Encode p.tokenName).length ∧
    p.royaltyParams.isSome = true ∧ p.restrictions.isSome = true)

/-- C10 counterexample: a 200-byte ASCII name with no optional references
needs more bits than the root cell can hold, yet encoding succeeds — the name
tail spills into a chained reference cell instead of throwing. -/
theorem voucher_capacity_counterexample :
    (createUnsignedDeployMessageV2
        ⟨1, 2, 3, List.replicate 200 97, Cell.mk [] [], Cell.mk [] [], none, none⟩).isOk =
      true ∧
    1023 < 104 + 8 * (utf8Encode (List.replicate 200 97)).length := by
  constructor
  · rw [createUnsigned_spill
      ⟨1, 2, 3, List.replicate 200 97, Cell.mk [] [], Cell.mk [] [], none, none⟩
      (by decide) (by decide) (by decide) (by decide) (by decide) (by decide)
      (by decide) (by decide) (Or.inl rfl)]
    rfl
  · decide

/-- C10 amended: `createUnsignedDeployMessageV2` is total with explicit
failure and never truncates: it throws exactly when `subwalletId`,
`validSince` or `validTill` lies outside `[0, 2^32)`, when the name's length
value (`tokenName.length`) exceeds 255, or when the name does not fit inline
(more than 114 UTF-8 bytes) while both optional references are present, so
that the spill reference would exceed the 4-reference capacity; bit capacity
alone is never exceeded — an oversized name continues in a chained reference
cell, whose bytes reassemble to exactly the encoded name. -/
theorem createUnsignedDeployMessageV2_total (p : UnsignedDeployMessageV2)
    (hdom : ∀ c ∈ p.tokenName, c < 0x110000) :
    ((createUnsignedDeployMessageV2 p).isOk = false ↔ voucherEncodingFails p) ∧
    (¬ voucherEncodingFails p → (utf8Encode p.tokenName).length ≤ 114 →
      createUnsignedDeployMessageV2 p = .ok (Cell.mk
        (voucherHeaderBits p ++ bytesToBits (utf8Encode p.tokenName) ++
          [p.royaltyParams.isSome, p.restrictions.isSome])
        ([p.content, p.auctionConfig] ++ p.royaltyParams.toList ++
          p.restrictions.toList))) ∧
    (¬ voucherEncodingFails p → 114 < (utf8Encode p.tokenName).length →
      createUnsignedDeployMessageV2 p = .ok (Cell.mk
        (voucherHeaderBits p ++ bytesToBits ((utf8Encode p.tokenName).take 114) ++
          [p.royaltyParams.isSome, p.restrictions.isSome])
        ([chunkTail ((utf8Encode p.tokenName).drop 114), p.content, p.auctionConfig] ++
          p.royaltyParams.toList ++ p.restrictions.toList)) ∧
      (chunkTail ((utf8Encode p.tokenName).drop 114)).tailBytes =
        .ok ((utf8Encode p.tokenName).drop 114)) := by
  have hgood : ¬ voucherEncodingFails p →
      (0 ≤ p.subwalletId ∧ p.subwalletId < (2 : Int) ^ 32) ∧
      (0 ≤ p.validSince ∧ p.validSince < (2 : Int) ^ 32) ∧
      (0 ≤ p.validTill ∧ p.validTill < (2 : Int) ^ 32) ∧
      jsLength p.tokenName ≤ 255 ∧
      ¬ (114 < (utf8Encode p.tokenName).length ∧
        p.royaltyParams.isSome = true ∧ p.restrictions.isSome = true) := by
    intro h
    rw [voucherEncodingFails] at h
    push_neg at h
    obtain ⟨a1, a2, a3, a4, a5, a6, a7, a8⟩ := h
    refine ⟨⟨a1, a2⟩, ⟨a3, a4⟩, ⟨a5, a6⟩, a7, ?_⟩
    intro ⟨b1, b2, b3⟩
    exact absurd (a8 b1 b2) (by simp [b3])
  have hopt : ¬ voucherEncodingFails p → 114 < (utf8Encode p.tokenName).length →
      p.royaltyParams = none ∨ p.restrictions = none := by
    intro h hlen
    obtain ⟨_, _, _, _, h5⟩ := hgood h
    rcases hr : p.royaltyParams with _ | r
    · exact Or.inl rfl
    · rcases ht : p.restrictions with _ | t
      · exact Or.inr rfl
      · exact absurd ⟨hlen, by rw [hr]; rfl, by rw [ht]; rfl⟩ h5
  refine ⟨⟨?_, ?_⟩, ?_, ?_⟩
  · intro herr
    by_contra hc
    obtain ⟨⟨a1, a2⟩, ⟨a3, a4⟩, ⟨a5, a6⟩, a7, _⟩ := hgood hc
    by_cases hlen : (utf8Encode p.tokenName).length ≤ 114
    · rw [createUnsigned_fits p a1 a2 a3 a4 a5 a6 a7 hlen] at herr
      simp [Except.isOk, Except.toBool] at herr
    · rw [createUnsigned_spill p a1 a2 a3 a4 a5 a6 a7 (by omega)
        (hopt hc (by omega))] at herr
      simp [Except.isOk, Except.toBool] at herr
  · intro hfail
    by_cases c1 : p.subwalletId < 0 ∨ (2 : Int) ^ 32 ≤ p.subwalletId
    · rw [createUnsigned_err_subwallet p c1]
      rfl
    · push_neg at c1
      by_cases c2 : p.validSince < 0 ∨ (2 : Int) ^ 32 ≤ p.validSince
      · rw [createUnsigned_err_since p c1.1 c1.2 c2]
        rfl
      · push_neg at c2
        by_cases c3 : p.validTill < 0 ∨ (2 : Int) ^ 32 ≤ p.validTill
        · rw [createUnsigned_err_till p c1.1 c1.2 c2.1 c2.2 c3]
          rfl
        · push_neg at c3
          by_cases c4 : 255 < jsLength p.tokenName
          · rw [createUnsigned_err_namelen p c1.1 c1.2 c2.1 c2.2 c3.1 c3.2 c4]
            rfl
          · push_neg at c4
            have c5 : 114 < (utf8Encode p.tokenName).length ∧
                p.royaltyParams.isSome = true ∧ p.restrictions.isSome = true := by
              rw [voucherEncodingFails] at hfail
              rcases hfail with h | h | h | h | h | h | h | h
              · omega
              · omega
              · omega
              · omega
              · omega
              · omega
              · omega
              · exact h
            rw [createUnsigned_err_refs p c1.1 c1.2 c2.1 c2.2 c3.1 c3.2 c4
              c5.1 c5.2.1 c5.2.2]
            rfl
  · intro hok hlen
    obtain ⟨⟨a1, a2⟩, ⟨a3, a4⟩, ⟨a5, a6⟩, a7, _⟩ := hgood hok
    exact createUnsigned_fits p a1 a2 a3 a4 a5 a6 a7 hlen
  · intro hok hlen
    obtain ⟨⟨a1, a2⟩, ⟨a3, a4⟩, ⟨a5, a6⟩, a7, _⟩ := hgood hok
    refine ⟨createUnsigned_spill p a1 a2 a3 a4 a5 a6 a7 hlen (hopt hok hlen), ?_⟩
    exact tailBytes_chunkTail _ (fun x hx =>
      utf8Encode_lt_256 p.tokenName hdom x (List.mem_of_mem_drop hx))

/-- C10 witness: the characterization applied at a concrete small voucher. -/
theorem createUnsignedDeployMessageV2_total_witness :
    (createUnsignedDeployMessageV2
        ⟨4, 5, 6, [49], Cell.mk [] [], Cell.mk [] [], none, none⟩).isOk = true := by
  have h := (createUnsignedDeployMessageV2_total
    ⟨4, 5, 6, [49], Cell.mk [] [], Cell.mk [] [], none, none⟩ (by decide)).1
  have hnf : ¬ voucherEncodingFails
      ⟨4, 5, 6, [49], Cell.mk [] [], Cell.mk [] [], none, none⟩ := by
    rw [voucherEncodingFails]
    decide
  rcases hb : (createUnsignedDeployMessageV2
      ⟨4, 5, 6, [49], Cell.mk [] [], Cell.mk [] [], none, none⟩).isOk with _ | _
  · exact absurd (h.mp (by rw [hb])) hnf
  · rfl

end Telemint
